import Mathlib

/-!
Verification of the AIPDFLab client-side PDF tool (src/src/App.jsx).

The component keeps four pieces of UI state (pending file list, processing
flag, message, result URL) and offers three operations built on the external
pdf-lib library: `mergePdfs`, `removePagesFromPdf` and `compressPdf`.

We embed the component shallowly:
  * a `JsFile` carries a name, a MIME type string and abstract content bytes;
  * a parsed PDF Document is a `List α` of abstract pages;
  * the external pdf-lib primitives (`load`, `load` with `ignoreEncryption`,
    `save`) are an explicit `PdfLib` record of fallible functions, since the
    library is a black box to this repository;
  * `copyPages` is modelled concretely as index selection over the page list
    (pdf-lib throws on an out-of-range index, hence the `Option`);
  * each operation is a function from the component state to the list of
    successive states it produces (its trace); the final state is the last
    element.  React `setX` calls become functional record updates.
-/

namespace AIPDFLab

/-- A file as delivered by the browser file picker: a name, the advertised
MIME content type, and the raw content bytes (abstract type `β`). -/
structure JsFile (β : Type) where
  name : String
  type : String
  content : β
  deriving Repr, DecidableEq

/-- The component's UI state: `useState` hooks `files`, `processing`,
`message`, `resultUrl`. The result artifact (blob/object URL) is modelled by
the serialized bytes (abstract type `γ`) it wraps. -/
structure AppState (β γ : Type) where
  files : List (JsFile β)
  processing : Bool
  message : String
  resultUrl : Option γ
  deriving Repr, DecidableEq

/-- The external pdf-lib primitives used by the component, as a record of
fallible functions: `PDFDocument.load`, `PDFDocument.load` with
`ignoreEncryption: true`, and `doc.save()`.  Pages are abstract (`α`),
input bytes are `β`, serialized output bytes are `γ`; a thrown `Error` is
its message string. -/
structure PdfLib (α β γ : Type) where
  load : β → Except String (List α)
  loadIgnoreEncryption : β → Except String (List α)
  save : List α → Except String γ

/-- `doc.getPageIndices()`: the list `[0, ..., pageCount - 1]`. -/
def getPageIndices (doc : List α) : List Nat :=
  List.range doc.length

/-- `dst.copyPages(src, indices)`: the pages of `src` at the given indices,
in the given order; pdf-lib throws if an index is out of range, modelled by
`none`. -/
def copyPages (doc : List α) (indices : List Nat) : Option (List α) :=
  indices.mapM fun i => doc[i]?

/-- Lift a pdf-lib call modelled with `Option` into the `Except`-based
pipeline, tagging the failure with the thrown error message. -/
def liftOpt (e : String) : Option γ → Except String γ
  | some x => Except.ok x
  | none => Except.error e

/-- The page-selection loop of `removePagesFromPdf`
(`for (let i = 0; i < total; i++) if (!pagesToRemove.includes(i + 1)) toKeep.push(i)`),
embedded as a structural recursion on the number of remaining iterations
(`i` is the loop counter, the fuel argument is `total - i`). -/
def toKeepAux (pagesToRemove : List Nat) (i : Nat) : Nat → List Nat
  | 0 => []
  | n + 1 =>
    if pagesToRemove.contains (i + 1) then toKeepAux pagesToRemove (i + 1) n
    else i :: toKeepAux pagesToRemove (i + 1) n

/-- The keep-list computed by `removePagesFromPdf` for a document of
`total` pages and removal request `pagesToRemove` (1-based page numbers). -/
def toKeep (total : Nat) (pagesToRemove : List Nat) : List Nat :=
  toKeepAux pagesToRemove 0 total

/-- Modelled from the spec (§4.1 Page Selector), for comparison with the
implementation: `keep = [i for i in 0..N-1 if (i+1) not in R]`. -/
def specKeep (N : Nat) (R : List Nat) : List Nat :=
  (List.range N).filter fun i => decide ((i + 1) ∉ R)

/-- Modelled from the spec (§4.2 Document Assembler), for comparison with the
implementation: given an ordered list of (source document, indices to copy)
pairs, start from an empty document and append the selected pages of each
source in input order. -/
def specAssemble (pairs : List (List α × List Nat)) : Option (List α) :=
  pairs.foldlM (fun acc p => (copyPages p.1 p.2).map fun c => acc ++ c) []

/-- `handleFilesSelected`: append to the current pending list exactly the
chosen files whose MIME type is `application/pdf` (`chosen` is `none` when
`e.target.files` is null). -/
def handleFilesSelected (chosen : Option (List (JsFile β)))
    (current : List (JsFile β)) : List (JsFile β) :=
  let chosenList := chosen.getD []
  let pdfs := chosenList.filter fun f => f.type == "application/pdf"
  current ++ pdfs

/-- The page-accumulation loop of `mergePdfs`: for each file, load it, copy
all its pages and append them to the accumulator document. -/
def mergeLoop (load : β → Except String (List α)) (files : List (JsFile β)) :
    Except String (List α) :=
  files.foldlM
    (fun acc f => do
      let donor ← load f.content
      let copied ← liftOpt "copyPages: index out of range"
        (copyPages donor (getPageIndices donor))
      pure (acc ++ copied))
    []

/-- The fallible body of `mergePdfs`'s `try` block: accumulate all pages of
all pending files into a fresh document, then serialize it. -/
def mergePipeline (lib : PdfLib α β γ) (files : List (JsFile β)) :
    Except String γ := do
  let merged ← mergeLoop lib.load files
  lib.save merged

/-- The trace of UI states produced by one invocation of `mergePdfs`:
the guard branch for an empty pending list, otherwise the Processing state,
the success/failure update, and the `finally` clearing of the flag. -/
def mergePdfsRun (lib : PdfLib α β γ) (s : AppState β γ) :
    List (AppState β γ) :=
  if s.files.length < 1 then
    [{ s with message := "Carica almeno 1 PDF." }]
  else
    let s1 : AppState β γ :=
      { s with processing := true, message := "Unione in corso..." }
    let s2 : AppState β γ :=
      match mergePipeline lib s.files with
      | Except.ok bytes =>
          { s1 with resultUrl := some bytes,
                    message := "Unione completata. Scarica il file qui sotto." }
      | Except.error e =>
          { s1 with message := "Errore durante l\x27unione: " ++ e }
    let s3 : AppState β γ := { s2 with processing := false }
    [s1, s2, s3]

/-- The state in which `mergePdfs` leaves the component. -/
def mergePdfsOp (lib : PdfLib α β γ) (s : AppState β γ) : AppState β γ :=
  (mergePdfsRun lib s).getLastD s

/-- The fallible body of `removePagesFromPdf`'s `try` block: load the file,
compute the keep-list, copy the kept pages into a fresh document, serialize. -/
def removePipeline (lib : PdfLib α β γ) (f : JsFile β)
    (pagesToRemove : List Nat) : Except String γ := do
  let src ← lib.load f.content
  let total := src.length
  let kept ← liftOpt "copyPages: index out of range"
    (copyPages src (toKeep total pagesToRemove))
  lib.save kept

/-- The trace of UI states produced by one invocation of
`removePagesFromPdf fileIndex pagesToRemove`: the early `return` when the
index is out of range updates nothing. -/
def removePagesFromPdfRun (lib : PdfLib α β γ) (s : AppState β γ)
    (fileIndex : Nat) (pagesToRemove : List Nat) : List (AppState β γ) :=
  match s.files[fileIndex]? with
  | none => []
  | some f =>
    let s1 : AppState β γ :=
      { s with processing := true, message := "Rimozione pagine in corso..." }
    let s2 : AppState β γ :=
      match removePipeline lib f pagesToRemove with
      | Except.ok bytes =>
          { s1 with resultUrl := some bytes,
                    message := "Pagine rimosse. Scarica il risultato qui sotto." }
      | Except.error e =>
          { s1 with message := "Errore: " ++ e }
    let s3 : AppState β γ := { s2 with processing := false }
    [s1, s2, s3]

/-- The state in which `removePagesFromPdf` leaves the component. -/
def removePagesFromPdfOp (lib : PdfLib α β γ) (s : AppState β γ)
    (fileIndex : Nat) (pagesToRemove : List Nat) : AppState β γ :=
  (removePagesFromPdfRun lib s fileIndex pagesToRemove).getLastD s

/-- The document assembled by `compressPdf` before serialization: load the
file (with `ignoreEncryption`) and copy all its pages into a fresh document
(the declared fallback: no resampling or re-encoding happens). -/
def compressDocOf (lib : PdfLib α β γ) (f : JsFile β) :
    Except String (List α) := do
  let src ← lib.loadIgnoreEncryption f.content
  liftOpt "copyPages: index out of range"
    (copyPages src (getPageIndices src))

/-- The fallible body of `compressPdf`'s `try` block. -/
def compressPipeline (lib : PdfLib α β γ) (f : JsFile β) :
    Except String γ := do
  let outDoc ← compressDocOf lib f
  lib.save outDoc

/-- The trace of UI states produced by one invocation of
`compressPdf fileIndex quality`.  The `quality` parameter is received
(default 0.6 in the source) but the body never reads it. -/
def compressPdfRun (lib : PdfLib α β γ) (s : AppState β γ)
    (fileIndex : Nat) (quality : Rat) : List (AppState β γ) :=
  match s.files[fileIndex]? with
  | none => []
  | some f =>
    let s1 : AppState β γ :=
      { s with processing := true,
               message := "Compressione in corso... questo può richiedere qualche secondo." }
    let s2 : AppState β γ :=
      match compressPipeline lib f with
      | Except.ok bytes =>
          { s1 with resultUrl := some bytes,
                    message := "Compressione (fallback) completata. Per compressione migliore usare endpoint server-side con PDF.js." }
      | Except.error e =>
          { s1 with message := "Errore durante la compressione: " ++ e }
    let s3 : AppState β γ := { s2 with processing := false }
    [s1, s2, s3]

/-- The state in which `compressPdf` leaves the component. -/
def compressPdfOp (lib : PdfLib α β γ) (s : AppState β γ)
    (fileIndex : Nat) (quality : Rat) : AppState β γ :=
  (compressPdfRun lib s fileIndex quality).getLastD s

/-! ### Concrete instantiations used by the witnesses -/

/-- A concrete pdf-lib instance whose "bytes" are already the page list:
loading parses trivially and saving is the identity. -/
def natLib : PdfLib Nat (List Nat) (List Nat) where
  load := fun b => Except.ok b
  loadIgnoreEncryption := fun b => Except.ok b
  save := fun d => Except.ok d

/-- A concrete pdf-lib instance all of whose primitives fail. -/
def errLib : PdfLib Nat (List Nat) (List Nat) where
  load := fun _ => Except.error "boom"
  loadIgnoreEncryption := fun _ => Except.error "boom"
  save := fun _ => Except.error "boom"

/-- A two-page concrete PDF file. -/
def fileA : JsFile (List Nat) :=
  { name := "a.pdf", type := "application/pdf", content := [10, 20] }

/-- A one-page concrete PDF file. -/
def fileB : JsFile (List Nat) :=
  { name := "b.pdf", type := "application/pdf", content := [30] }

/-- A concrete non-PDF file (wrong MIME type). -/
def fileT : JsFile (List Nat) :=
  { name := "t.txt", type := "text/plain", content := [99] }

/-- A concrete idle state with two pending PDFs. -/
def sTwo : AppState (List Nat) (List Nat) :=
  { files := [fileA, fileB], processing := false, message := "", resultUrl := none }

/-- A concrete state with an empty pending list (and stale message/result). -/
def sEmpty : AppState (List Nat) (List Nat) :=
  { files := [], processing := false, message := "stale", resultUrl := some [7] }

/-! ### Helper lemmas -/

/-- Unrolling the page-selection loop: starting the counter at `i` with `n`
iterations left selects exactly the kept indices among `i, ..., i + n - 1`. -/
theorem toKeepAux_eq (R : List Nat) (n : Nat) :
    ∀ i, toKeepAux R i n = (List.range' i n).filter fun k => !(R.contains (k + 1)) := by
  induction n with
  | zero => intro i; simp [toKeepAux]
  | succ n ih =>
    intro i
    rw [toKeepAux, List.range'_succ, List.filter_cons]
    rcases h : R.contains (i + 1) with _ | _
    · simp [h, ih (i + 1)]
    · simp [h, ih (i + 1)]

/-- The keep-list is the filter of `[0, ..., total - 1]` by the
loop's predicate. -/
theorem toKeep_eq_filter (N : Nat) (R : List Nat) :
    toKeep N R = (List.range N).filter fun k => !(R.contains (k + 1)) := by
  have h := toKeepAux_eq R N 0
  simpa [toKeep, List.range_eq_range'] using h

/-- Reading back a list through the full range of its indices returns the
list (stated with a prefix `pre` so the induction goes through). -/
theorem mapM_getElem_range' (l : List α) :
    ∀ pre : List α,
      (List.range' pre.length l.length).mapM (fun i => (pre ++ l)[i]?) = some l := by
  induction l with
  | nil => intro pre; rfl
  | cons a t ih =>
    intro pre
    rw [List.length_cons, List.range'_succ, List.mapM_cons]
    have h1 : (pre ++ a :: t)[pre.length]? = some a := by
      rw [List.getElem?_append_right (Nat.le_refl _)]
      simp
    have h2 : (List.range' (pre.length + 1) t.length).mapM
        (fun i => (pre ++ a :: t)[i]?) = some t := by
      have h3 := ih (pre ++ [a])
      simpa using h3
    rw [h1]
    simp only [Option.bind_eq_bind, Option.some_bind]
    rw [h2]
    simp

/-- Copying a document's full index range reproduces the document. -/
theorem copyPages_getPageIndices (l : List α) :
    copyPages l (getPageIndices l) = some l := by
  have h := mapM_getElem_range' l []
  simpa [copyPages, getPageIndices, List.range_eq_range'] using h

/-- Counting a filter by counting its complement. -/
theorem length_filter_eq_sub (p : α → Bool) (l : List α) :
    (l.filter p).length = l.length - (l.filter fun a => !(p a)).length := by
  induction l with
  | nil => simp
  | cons a t ih =>
    have hle : (t.filter fun a => !(p a)).length ≤ t.length := List.length_filter_le _ t
    rcases h : p a with _ | _
    · simp [List.filter_cons, h, ih]
    · simp [List.filter_cons, h, ih]
      omega

/-- The number of removed indices, counted over the loop range, is the
cardinality of the set intersection `R ∩ {1..N}`. -/
theorem removedCard (R : List Nat) (N : Nat) :
    ((List.range N).filter fun i => R.contains (i + 1)).length
      = ((Finset.Icc 1 N).filter fun j => j ∈ R).card := by
  induction N with
  | zero => simp
  | succ n ih =>
    rw [List.range_succ, List.filter_append, List.length_append, ih]
    have hIcc : Finset.Icc 1 (n + 1) = insert (n + 1) (Finset.Icc 1 n) := by
      rw [← Nat.Ico_succ_right, Nat.Ico_succ_right_eq_insert_Ico (by omega),
        Nat.Ico_succ_right]
    rw [hIcc]
    by_cases h : (n + 1) ∈ R
    · rw [Finset.filter_insert, if_pos h, Finset.card_insert_of_not_mem (by simp)]
      simp [h]
    · rw [Finset.filter_insert, if_neg h]
      simp [h]

/-- The merge loop, run on files that load to `docs`, accumulates the
concatenation of `docs` onto any starting accumulator. -/
theorem mergeLoop_forall₂ (load : β → Except String (List α))
    {files : List (JsFile β)} {docs : List (List α)}
    (h : List.Forall₂ (fun f d => load f.content = Except.ok d) files docs) :
    ∀ acc : List α,
      files.foldlM
        (fun acc f => do
          let donor ← load f.content
          let copied ← liftOpt "copyPages: index out of range"
            (copyPages donor (getPageIndices donor))
          pure (acc ++ copied))
        acc = Except.ok (acc ++ docs.flatten) := by
  induction h with
  | nil => intro acc; simp [List.foldlM]; rfl
  | cons hfd htl ih =>
    intro acc
    rename_i f d fs ds
    have ih2 := ih (acc ++ d)
    simp [List.foldlM_cons, hfd, Bind.bind, Except.bind, Pure.pure, Except.pure,
      copyPages_getPageIndices, liftOpt, List.append_assoc] at ih2 ⊢
    exact ih2

/-- The merge loop on files that load to `docs` returns the concatenation
of `docs`. -/
theorem mergeLoop_eq (load : β → Except String (List α))
    {files : List (JsFile β)} {docs : List (List α)}
    (h : List.Forall₂ (fun f d => load f.content = Except.ok d) files docs) :
    mergeLoop load files = Except.ok docs.flatten := by
  have h0 := mergeLoop_forall₂ load h []
  simpa [mergeLoop] using h0

/-! ### Claims -/

/-- C1: the page selector of `removePagesFromPdf` produces exactly the
ordered list of 0-based indices `[i for i in 0..N-1 if (i+1) not in R]`;
out-of-range numbers in `R` are ignored (selection is unchanged if they are
dropped), an empty `R` keeps all `N` indices, and the two concrete scenarios
from the spec hold: `N = 5, R = {2}` gives `[0,2,3,4]` and `N = 5, R = {99}`
gives `[0,1,2,3,4]`. -/
theorem C1_page_selector_matches_spec (N : Nat) (R : List Nat) :
    toKeep N R = specKeep N R
    ∧ toKeep N R = toKeep N (R.filter fun r => r ≤ N)
    ∧ toKeep N [] = List.range N
    ∧ toKeep 5 [2] = [0, 2, 3, 4]
    ∧ toKeep 5 [99] = [0, 1, 2, 3, 4] := by
  refine ⟨?_, ?_, ?_, by decide, by decide⟩
  · rw [toKeep_eq_filter, specKeep]
    apply List.filter_congr
    intro k _
    simp
  · rw [toKeep_eq_filter, toKeep_eq_filter]
    apply List.filter_congr
    intro k hk
    rw [List.mem_range] at hk
    have hmem : ((k + 1) ∈ R.filter fun r => decide (r ≤ N)) ↔ (k + 1) ∈ R := by
      simp only [List.mem_filter, decide_eq_true_eq]
      exact ⟨fun hh => hh.1, fun hh => ⟨hh, by omega⟩⟩
    congr 1
    rcases hc : R.contains (k + 1) with _ | _
    · have hnin : ¬ (k + 1) ∈ R := by
        intro hin
        have hcm : R.contains (k + 1) = true := List.elem_iff.mpr hin
        rw [hcm] at hc
        simp at hc
      symm
      rw [Bool.eq_false_iff]
      intro hc2
      rw [List.elem_iff] at hc2
      exact hnin (hmem.mp hc2)
    · have hin : (k + 1) ∈ R := by
        rw [← List.elem_iff]
        exact hc
      symm
      rw [List.elem_iff]
      exact hmem.mpr hin
  · rw [toKeep_eq_filter]
    simp

/-- C2: the keep-list has length `N - |R ∩ {1..N}|` and is strictly
increasing. -/
theorem C2_keep_length_sorted (N : Nat) (R : List Nat) :
    (toKeep N R).length = N - ((Finset.Icc 1 N).filter fun j => j ∈ R).card
    ∧ List.Pairwise (· < ·) (toKeep N R) := by
  constructor
  · rw [toKeep_eq_filter, length_filter_eq_sub, ← removedCard R N]
    simp [Bool.not_not]
  · rw [toKeep_eq_filter]
    exact List.Pairwise.sublist (List.filter_sublist _) (List.pairwise_lt_range N)

/-- C3: merging any ordered list of source documents yields their full page
sequences concatenated in list order, and the output page count is the sum
of the sources' page counts. -/
theorem C3_merge_concatenation (lib : PdfLib α β γ)
    {files : List (JsFile β)} {docs : List (List α)}
    (h : List.Forall₂ (fun f d => lib.load f.content = Except.ok d) files docs) :
    mergeLoop lib.load files = Except.ok docs.flatten
    ∧ docs.flatten.length = (docs.map List.length).sum := by
  refine ⟨mergeLoop_eq lib.load h, ?_⟩
  simp

/-- Witness for C3 at two concrete documents. -/
theorem C3_witness :
    List.Forall₂ (fun f d => natLib.load f.content = Except.ok d)
      [fileA, fileB] [[10, 20], [30]]
    ∧ mergeLoop natLib.load [fileA, fileB]
        = Except.ok ([[10, 20], [30]] : List (List Nat)).flatten
    ∧ ([[10, 20], [30]] : List (List Nat)).flatten.length
        = (([[10, 20], [30]] : List (List Nat)).map List.length).sum := by
  have hf : List.Forall₂ (fun f d => natLib.load f.content = Except.ok d)
      [fileA, fileB] [[10, 20], [30]] :=
    List.Forall₂.cons rfl (List.Forall₂.cons rfl List.Forall₂.nil)
  have h := C3_merge_concatenation natLib hf
  exact ⟨hf, h.1, h.2⟩

/-- C4: merging the singleton list containing one document reproduces that
document's page sequence (hence its page count) unchanged. -/
theorem C4_merge_singleton_identity (lib : PdfLib α β γ)
    (f : JsFile β) (d : List α)
    (h : lib.load f.content = Except.ok d) :
    mergeLoop lib.load [f] = Except.ok d := by
  have h2 := mergeLoop_eq lib.load (List.Forall₂.cons h List.Forall₂.nil)
  simpa using h2

/-- Witness for C4 at a concrete two-page document. -/
theorem C4_witness :
    natLib.load fileA.content = Except.ok [10, 20]
    ∧ mergeLoop natLib.load [fileA] = Except.ok [10, 20] :=
  ⟨rfl, C4_merge_singleton_identity natLib fileA [10, 20] rfl⟩

/-- C5: the compression operation assembles exactly the source's page
sequence (it is the copy-all assembly, no page is altered or dropped) and,
when serialization succeeds, publishes that artifact with the success
message. -/
theorem C5_compress_is_copy_all (lib : PdfLib α β γ) (s : AppState β γ)
    (i : Nat) (q : Rat) (f : JsFile β) (src : List α) (bytes : γ)
    (hf : s.files[i]? = some f)
    (hl : lib.loadIgnoreEncryption f.content = Except.ok src)
    (hs : lib.save src = Except.ok bytes) :
    compressDocOf lib f = Except.ok src
    ∧ specAssemble [(src, getPageIndices src)] = some src
    ∧ (compressPdfOp lib s i q).resultUrl = some bytes
    ∧ (compressPdfOp lib s i q).message
        = "Compressione (fallback) completata. Per compressione migliore usare endpoint server-side con PDF.js." := by
  have hdoc : compressDocOf lib f = Except.ok src := by
    simp [compressDocOf, hl, Bind.bind, Except.bind, copyPages_getPageIndices, liftOpt]
  have hpipe : compressPipeline lib f = Except.ok bytes := by
    simp [compressPipeline, hdoc, Bind.bind, Except.bind, hs]
  refine ⟨hdoc, ?_, ?_, ?_⟩
  · simp [specAssemble, List.foldlM, copyPages_getPageIndices, Bind.bind, Option.bind]
  · simp [compressPdfOp, compressPdfRun, hf, hpipe, List.getLastD]
  · simp [compressPdfOp, compressPdfRun, hf, hpipe, List.getLastD]

/-- Witness for C5 at a concrete two-page document. -/
theorem C5_witness :
    sTwo.files[0]? = some fileA
    ∧ natLib.loadIgnoreEncryption fileA.content = Except.ok [10, 20]
    ∧ natLib.save [10, 20] = Except.ok [10, 20]
    ∧ compressDocOf natLib fileA = Except.ok [10, 20]
    ∧ specAssemble [([10, 20], getPageIndices [10, 20])] = some [10, 20]
    ∧ (compressPdfOp natLib sTwo 0 (6 / 10)).resultUrl = some [10, 20]
    ∧ (compressPdfOp natLib sTwo 0 (6 / 10)).message
        = "Compressione (fallback) completata. Per compressione migliore usare endpoint server-side con PDF.js." := by
  have h := C5_compress_is_copy_all natLib sTwo 0 (6 / 10) fileA [10, 20] [10, 20]
    rfl rfl rfl
  exact ⟨rfl, rfl, rfl, h.1, h.2.1, h.2.2.1, h.2.2.2⟩

/-- C6: in each of the three operations every pipeline failure is caught and
surfaced as a human-readable message while the result handle keeps its old
value, and a pipeline success publishes the complete serialized artifact. -/
theorem C6_errors_caught_no_partial_result (lib : PdfLib α β γ)
    (s : AppState β γ) (i j : Nat) (R : List Nat) (q : Rat)
    (f g : JsFile β)
    (hm : s.files ≠ [])
    (hi : s.files[i]? = some f)
    (hj : s.files[j]? = some g) :
    ((∃ e, mergePipeline lib s.files = Except.error e
        ∧ (mergePdfsOp lib s).resultUrl = s.resultUrl
        ∧ (mergePdfsOp lib s).message = "Errore durante l\x27unione: " ++ e)
      ∨ (∃ b, mergePipeline lib s.files = Except.ok b
        ∧ (mergePdfsOp lib s).resultUrl = some b
        ∧ (mergePdfsOp lib s).message
            = "Unione completata. Scarica il file qui sotto."))
    ∧ ((∃ e, removePipeline lib f R = Except.error e
        ∧ (removePagesFromPdfOp lib s i R).resultUrl = s.resultUrl
        ∧ (removePagesFromPdfOp lib s i R).message = "Errore: " ++ e)
      ∨ (∃ b, removePipeline lib f R = Except.ok b
        ∧ (removePagesFromPdfOp lib s i R).resultUrl = some b
        ∧ (removePagesFromPdfOp lib s i R).message
            = "Pagine rimosse. Scarica il risultato qui sotto."))
    ∧ ((∃ e, compressPipeline lib g = Except.error e
        ∧ (compressPdfOp lib s j q).resultUrl = s.resultUrl
        ∧ (compressPdfOp lib s j q).message = "Errore durante la compressione: " ++ e)
      ∨ (∃ b, compressPipeline lib g = Except.ok b
        ∧ (compressPdfOp lib s j q).resultUrl = some b
        ∧ (compressPdfOp lib s j q).message
            = "Compressione (fallback) completata. Per compressione migliore usare endpoint server-side con PDF.js.")) := by
  have hg : ¬ s.files.length < 1 := by
    have hpos := List.length_pos.mpr hm
    omega
  refine ⟨?_, ?_, ?_⟩
  · cases hp : mergePipeline lib s.files with
    | error e =>
      exact Or.inl ⟨e, rfl, by simp [mergePdfsOp, mergePdfsRun, hg, hp, List.getLastD],
        by simp [mergePdfsOp, mergePdfsRun, hg, hp, List.getLastD]⟩
    | ok b =>
      exact Or.inr ⟨b, rfl, by simp [mergePdfsOp, mergePdfsRun, hg, hp, List.getLastD],
        by simp [mergePdfsOp, mergePdfsRun, hg, hp, List.getLastD]⟩
  · cases hp : removePipeline lib f R with
    | error e =>
      exact Or.inl ⟨e, rfl,
        by simp [removePagesFromPdfOp, removePagesFromPdfRun, hi, hp, List.getLastD],
        by simp [removePagesFromPdfOp, removePagesFromPdfRun, hi, hp, List.getLastD]⟩
    | ok b =>
      exact Or.inr ⟨b, rfl,
        by simp [removePagesFromPdfOp, removePagesFromPdfRun, hi, hp, List.getLastD],
        by simp [removePagesFromPdfOp, removePagesFromPdfRun, hi, hp, List.getLastD]⟩
  · cases hp : compressPipeline lib g with
    | error e =>
      exact Or.inl ⟨e, rfl,
        by simp [compressPdfOp, compressPdfRun, hj, hp, List.getLastD],
        by simp [compressPdfOp, compressPdfRun, hj, hp, List.getLastD]⟩
    | ok b =>
      exact Or.inr ⟨b, rfl,
        by simp [compressPdfOp, compressPdfRun, hj, hp, List.getLastD],
        by simp [compressPdfOp, compressPdfRun, hj, hp, List.getLastD]⟩

/-- Witness for C6 at a concrete state with two pending files. -/
theorem C6_witness :
    sTwo.files ≠ []
    ∧ sTwo.files[0]? = some fileA
    ∧ sTwo.files[1]? = some fileB
    ∧ (((∃ e, mergePipeline natLib sTwo.files = Except.error e
        ∧ (mergePdfsOp natLib sTwo).resultUrl = sTwo.resultUrl
        ∧ (mergePdfsOp natLib sTwo).message = "Errore durante l\x27unione: " ++ e)
      ∨ (∃ b, mergePipeline natLib sTwo.files = Except.ok b
        ∧ (mergePdfsOp natLib sTwo).resultUrl = some b
        ∧ (mergePdfsOp natLib sTwo).message
            = "Unione completata. Scarica il file qui sotto."))
    ∧ ((∃ e, removePipeline natLib fileA [2] = Except.error e
        ∧ (removePagesFromPdfOp natLib sTwo 0 [2]).resultUrl = sTwo.resultUrl
        ∧ (removePagesFromPdfOp natLib sTwo 0 [2]).message = "Errore: " ++ e)
      ∨ (∃ b, removePipeline natLib fileA [2] = Except.ok b
        ∧ (removePagesFromPdfOp natLib sTwo 0 [2]).resultUrl = some b
        ∧ (removePagesFromPdfOp natLib sTwo 0 [2]).message
            = "Pagine rimosse. Scarica il risultato qui sotto."))
    ∧ ((∃ e, compressPipeline natLib fileB = Except.error e
        ∧ (compressPdfOp natLib sTwo 1 (6 / 10)).resultUrl = sTwo.resultUrl
        ∧ (compressPdfOp natLib sTwo 1 (6 / 10)).message
            = "Errore durante la compressione: " ++ e)
      ∨ (∃ b, compressPipeline natLib fileB = Except.ok b
        ∧ (compressPdfOp natLib sTwo 1 (6 / 10)).resultUrl = some b
        ∧ (compressPdfOp natLib sTwo 1 (6 / 10)).message
            = "Compressione (fallback) completata. Per compressione migliore usare endpoint server-side con PDF.js."))) := by
  refine ⟨by simp [sTwo], rfl, rfl, ?_⟩
  exact C6_errors_caught_no_partial_result natLib sTwo 0 1 [2] (6 / 10) fileA fileB
    (by simp [sTwo]) rfl rfl

/-- C7: the file picker handler appends, in order, exactly the chosen files
advertising the PDF MIME type; the decision depends only on the advertised
type, never on the file contents. -/
theorem C7_picker_mime_filter {β β2 : Type}
    (chosen : Option (List (JsFile β))) (cur : List (JsFile β))
    (g : JsFile β → JsFile β2) (hg : ∀ f, (g f).type = f.type) :
    handleFilesSelected chosen cur
      = cur ++ ((chosen.getD []).filter fun f => f.type == "application/pdf")
    ∧ ((chosen.getD []).filter fun f => f.type == "application/pdf").Sublist
        (chosen.getD [])
    ∧ (∀ f ∈ (chosen.getD []).filter fun f => f.type == "application/pdf",
        f.type = "application/pdf")
    ∧ (∀ f ∈ chosen.getD [], f.type = "application/pdf" →
        f ∈ handleFilesSelected chosen cur)
    ∧ handleFilesSelected (chosen.map (List.map g)) (cur.map g)
      = (handleFilesSelected chosen cur).map g := by
  refine ⟨rfl, List.filter_sublist _, ?_, ?_, ?_⟩
  · intro f hfm
    rw [List.mem_filter] at hfm
    simpa using hfm.2
  · intro f hfm hft
    rw [handleFilesSelected]
    simp only [List.mem_append, List.mem_filter]
    exact Or.inr ⟨hfm, by simp [hft]⟩
  · cases chosen with
    | none => simp [handleFilesSelected]
    | some l =>
      show handleFilesSelected (some (l.map g)) (cur.map g)
          = (handleFilesSelected (some l) cur).map g
      simp only [handleFilesSelected, Option.getD_some, List.map_append]
      congr 1
      rw [List.filter_map]
      congr 1
      apply List.filter_congr
      intro x _
      simp [Function.comp, hg x]

/-- A content-erasing map on concrete files, used to witness that the picker
decision depends only on the MIME type. -/
def eraseContent (f : JsFile (List Nat)) : JsFile (List Nat) :=
  { name := f.name, type := f.type, content := [] }

/-- Witness for C7 at a concrete picker event (one PDF, one text file) and a
content-erasing map. -/
theorem C7_witness :
    (∀ f : JsFile (List Nat), (eraseContent f).type = f.type)
    ∧ (handleFilesSelected (some [fileA, fileT]) [fileB]
        = [fileB] ++ (((some [fileA, fileT]).getD []).filter
            fun f => f.type == "application/pdf")
    ∧ (((some [fileA, fileT]).getD []).filter
          fun f => f.type == "application/pdf").Sublist
        ((some [fileA, fileT]).getD [])
    ∧ (∀ f ∈ ((some [fileA, fileT]).getD []).filter
          fun f => f.type == "application/pdf",
        f.type = "application/pdf")
    ∧ (∀ f ∈ (some [fileA, fileT]).getD [], f.type = "application/pdf" →
        f ∈ handleFilesSelected (some [fileA, fileT]) [fileB])
    ∧ handleFilesSelected ((some [fileA, fileT]).map (List.map eraseContent))
        ([fileB].map eraseContent)
      = (handleFilesSelected (some [fileA, fileT]) [fileB]).map eraseContent) :=
  ⟨fun _ => rfl,
    C7_picker_mime_filter (some [fileA, fileT]) [fileB] eraseContent fun _ => rfl⟩

/-- C8: once an operation passes its entry guard, its trace starts in the
Processing state and its final state has the processing flag cleared — the
component always returns to Idle. -/
theorem C8_processing_state_machine (lib : PdfLib α β γ)
    (s : AppState β γ) (i j : Nat) (R : List Nat) (q : Rat)
    (f g : JsFile β)
    (hm : s.files ≠ [])
    (hi : s.files[i]? = some f)
    (hj : s.files[j]? = some g) :
    ((mergePdfsRun lib s).head?.map AppState.processing = some true
      ∧ ((mergePdfsRun lib s).getLastD s).processing = false)
    ∧ ((removePagesFromPdfRun lib s i R).head?.map AppState.processing = some true
      ∧ ((removePagesFromPdfRun lib s i R).getLastD s).processing = false)
    ∧ ((compressPdfRun lib s j q).head?.map AppState.processing = some true
      ∧ ((compressPdfRun lib s j q).getLastD s).processing = false) := by
  have hg : ¬ s.files.length < 1 := by
    have hpos := List.length_pos.mpr hm
    omega
  refine ⟨⟨?_, ?_⟩, ⟨?_, ?_⟩, ⟨?_, ?_⟩⟩
  · simp [mergePdfsRun, hg]
  · simp [mergePdfsRun, hg, List.getLastD]
  · simp [removePagesFromPdfRun, hi]
  · simp [removePagesFromPdfRun, hi, List.getLastD]
  · simp [compressPdfRun, hj]
  · simp [compressPdfRun, hj, List.getLastD]

/-- Witness for C8 at a concrete state with two pending files. -/
theorem C8_witness :
    sTwo.files ≠ []
    ∧ sTwo.files[0]? = some fileA
    ∧ sTwo.files[1]? = some fileB
    ∧ (((mergePdfsRun natLib sTwo).head?.map AppState.processing = some true
      ∧ ((mergePdfsRun natLib sTwo).getLastD sTwo).processing = false)
    ∧ ((removePagesFromPdfRun natLib sTwo 0 [2]).head?.map AppState.processing
          = some true
      ∧ ((removePagesFromPdfRun natLib sTwo 0 [2]).getLastD sTwo).processing = false)
    ∧ ((compressPdfRun natLib sTwo 1 (6 / 10)).head?.map AppState.processing
          = some true
      ∧ ((compressPdfRun natLib sTwo 1 (6 / 10)).getLastD sTwo).processing
          = false)) := by
  refine ⟨by simp [sTwo], rfl, rfl, ?_⟩
  exact C8_processing_state_machine natLib sTwo 0 1 [2] (6 / 10) fileA fileB
    (by simp [sTwo]) rfl rfl

/-- C9: invoking the merge operation on an empty pending list only sets the
advisory message: the processing flag and the result handle are untouched in
every state of the trace, and the outcome does not depend on the PDF library
(nothing is loaded or assembled). -/
theorem C9_merge_empty_guard (lib lib2 : PdfLib α β γ) (s : AppState β γ)
    (h : s.files = []) :
    mergePdfsOp lib s = { s with message := "Carica almeno 1 PDF." }
    ∧ (∀ t ∈ mergePdfsRun lib s,
        t.processing = s.processing ∧ t.resultUrl = s.resultUrl)
    ∧ mergePdfsOp lib s = mergePdfsOp lib2 s := by
  have hg : s.files.length < 1 := by simp [h]
  refine ⟨?_, ?_, ?_⟩
  · simp [mergePdfsOp, mergePdfsRun, hg, List.getLastD]
  · intro t ht
    simp [mergePdfsRun, hg] at ht
    simp [ht]
  · simp [mergePdfsOp, mergePdfsRun, hg]

/-- Witness for C9 at a concrete empty-list state and two different
libraries. -/
theorem C9_witness :
    sEmpty.files = []
    ∧ (mergePdfsOp natLib sEmpty
        = { sEmpty with message := "Carica almeno 1 PDF." }
    ∧ (∀ t ∈ mergePdfsRun natLib sEmpty,
        t.processing = sEmpty.processing ∧ t.resultUrl = sEmpty.resultUrl)
    ∧ mergePdfsOp natLib sEmpty = mergePdfsOp errLib sEmpty) := by
  exact ⟨rfl, C9_merge_empty_guard natLib errLib sEmpty rfl⟩

/-- C10: the compression operation ignores its quality parameter — any two
quality values give identical traces and identical final states. -/
theorem C10_quality_has_no_effect (lib : PdfLib α β γ) (s : AppState β γ)
    (i : Nat) (q1 q2 : Rat) :
    compressPdfRun lib s i q1 = compressPdfRun lib s i q2
    ∧ compressPdfOp lib s i q1 = compressPdfOp lib s i q2 :=
  ⟨rfl, rfl⟩

end AIPDFLab
